import Mathlib

/-!
Shallow embedding of the hypersdk proposer-aware gossiper
(`gossiper/proposer.go`) and of the tokenvm balance storage
(`examples/tokenvm/storage/storage.go`), together with theorems checking
the natural-language specification against the code.

Conventions of the embedding:
* `ids.ID`, `ids.NodeID` and `crypto.PublicKey` are modelled as `Nat`.
* Go `int64` values (timestamps, `GossipMinLife`) are modelled as `Int`;
  Go `uint64` values (units, balances) as `Nat`, with an explicit
  `% 2 ^ 64` where Go addition may wrap.
* External collaborators (the VM interface: `Proposers`, `PreferredBlock`,
  `IsValidator`, marshaling, the network sender) are oracles supplied in
  environment records; their success or failure is part of the input.
* Fallible Go functions returning `error` are modelled with `Except` /
  `Option`-error results; a Go function that mutates receiver state is
  modelled by returning the new state.
-/

set_option maxRecDepth 4096

namespace HyperSDK

/-- Modelled from the spec: the bounded LRU set (`cache.LRU` of avalanchego,
not part of this repository's sources). `keys` is ordered most-recently-used
first; eviction happens only by capacity pressure, never by time. -/
structure LRU where
  size : Nat
  keys : List Nat
deriving DecidableEq, Repr

/-- Modelled from the spec: `LRU.Get` reports membership and promotes the
key to most-recently-used on a hit. -/
def LRU.get (c : LRU) (k : Nat) : Bool × LRU :=
  if k ∈ c.keys then (true, ⟨c.size, k :: c.keys.erase k⟩) else (false, c)

/-- Modelled from the spec: `LRU.Put` inserts (or promotes) a key as
most-recently-used, evicting the least-recently-used member when the new
member would exceed capacity. -/
def LRU.put (c : LRU) (k : Nat) : LRU :=
  if k ∈ c.keys then ⟨c.size, k :: c.keys.erase k⟩
  else ⟨c.size, (k :: c.keys).take c.size⟩

/-- A candidate transaction as seen by the gossiper.  `units`, `unitsErr`,
`preExecOk` and the `h*` fields are the outcomes of the external `chain`
collaborator calls made by the batch selector (`MaxUnits`, `PreExecute`,
`HandlePreExecute`), recorded per transaction. -/
structure Tx where
  id : Nat
  /-- `Base.Timestamp` (unix seconds, Go `int64`). -/
  timestamp : Int
  /-- Result of `MaxUnits(r)` when it succeeds (Go `uint64`). -/
  units : Nat
  /-- `MaxUnits(r)` returned an error. -/
  unitsErr : Bool
  /-- `PreExecute` succeeded. -/
  preExecOk : Bool
  /-- `chain.HandlePreExecute(err)` outputs, used when `preExecOk = false`. -/
  hCont : Bool
  hRestore : Bool
  hRemoveAcct : Bool
deriving DecidableEq, Repr

/-- `ProposerConfig` from `gossiper/proposer.go`. -/
structure ProposerConfig where
  gossipProposerDiff : Nat
  gossipProposerDepth : Nat
  /-- `GossipInterval`, in milliseconds. -/
  gossipInterval : Nat
  gossipPeerCacheSize : Nat
  gossipReceivedCacheSize : Nat
  /-- `GossipMinLife`, seconds (Go `int64`). -/
  gossipMinLife : Int
  buildProposerDiff : Nat
deriving DecidableEq, Repr

/-- `DefaultProposerConfig` from `gossiper/proposer.go`. -/
def defaultProposerConfig : ProposerConfig :=
  { gossipProposerDiff := 2
    gossipProposerDepth := 3
    gossipInterval := 1000
    gossipPeerCacheSize := 10240
    gossipReceivedCacheSize := 65536
    gossipMinLife := 5
    buildProposerDiff := 2 }

/-- The chain rules consulted by the gossiper (`r.GetMaxBlockUnits()`,
`r.GetMaxBlockTxs()`). -/
structure Rules where
  maxBlockUnits : Nat
  maxBlockTxs : Nat
deriving DecidableEq, Repr

/-- Modulus of Go `uint64` arithmetic. -/
def u64Mod : Nat := 2 ^ 64

/-- State threaded through the batch-selection callback of `TriggerGossip`:
the accumulated batch `txs`, the accumulator `totalUnits` (Go `uint64`),
and the global received cache (`g.receivedTxs`, whose recency order the
callback's `Get` updates). -/
structure SelSt where
  txs : List Tx
  totalUnits : Nat
  received : LRU
deriving DecidableEq, Repr

/-- The four values returned by the mempool-build callback in Go:
`(cont, restore, removeAcct, err)`; the callback never returns a non-nil
error, so `err` is omitted and the updated selection state is returned
instead. -/
structure StepRes where
  cont : Bool
  restore : Bool
  removeAcct : Bool
  st : SelSt
deriving DecidableEq, Repr

/-- The batch-selection callback passed to `Mempool().Build` by
`TriggerGossip` (`gossiper/proposer.go` lines 181-224), examining one
candidate `next` at time `now`. -/
def gossipSelectStep (cfg : ProposerConfig) (rules : Rules) (now : Int)
    (st : SelSt) (next : Tx) : StepRes :=
  if next.timestamp < now then ⟨true, false, false, st⟩
  else if next.timestamp - now < cfg.gossipMinLife then ⟨true, true, false, st⟩
  else
    let gr := st.received.get next.id
    let st1 : SelSt := { st with received := gr.2 }
    if gr.1 then ⟨true, true, false, st1⟩
    else if next.preExecOk = false then ⟨next.hCont, next.hRestore, next.hRemoveAcct, st1⟩
    else if next.unitsErr then ⟨true, false, false, st1⟩
    else if rules.maxBlockUnits < (next.units + st1.totalUnits) % u64Mod then
      ⟨false, true, false, st1⟩
    else
      let st2 : SelSt :=
        { st1 with
          txs := st1.txs ++ [next]
          totalUnits := (st1.totalUnits + next.units) % u64Mod }
      ⟨decide (st2.txs.length < rules.maxBlockTxs), true, false, st2⟩

/-- Disposition of one mempool candidate during a batching pass:
either the scan stopped before it, or it was examined with the recorded
in-batch and kept-in-mempool (the callback's `restore`) outcomes. -/
inductive Disp where
  | unexamined : Disp
  | examined (inBatch : Bool) (kept : Bool) : Disp
deriving DecidableEq, Repr

/-- Modelled from the spec: `Mempool().Build` (the mempool collaborator,
not part of this repository's sources) offers candidates in priority
order, calls the visitor on each, honours its `cont` flag (stopping the
scan when it is false) and its `restore` flag (keep vs. drop).  Returns
the final selection state and each candidate's disposition. -/
def buildGossip (cfg : ProposerConfig) (rules : Rules) (now : Int) :
    List Tx → SelSt → SelSt × List (Tx × Disp)
  | [], st => (st, [])
  | next :: rest, st =>
    let r := gossipSelectStep cfg rules now st next
    let d : Disp := .examined (r.st.txs.length != st.txs.length) r.restore
    if r.cont then
      let res := buildGossip cfg rules now rest r.st
      (res.1, (next, d) :: res.2)
    else
      (r.st, (next, d) :: rest.map (fun t => (t, Disp.unexamined)))

/-- A network send attempted by `sendTxs`: either one all-to-all broadcast
(`SendAppGossip`) or one targeted send (`SendAppGossipSpecific`), carrying
the IDs of the marshaled transactions. -/
inductive SendEv where
  | broadcast (txIds : List Nat) : SendEv
  | targeted (peer : Nat) (txIds : List Nat) : SendEv
deriving DecidableEq, Repr

/-- `g.gossipedTxs`: the map from peer identity to its per-peer sent
cache, modelled as an association list. -/
def GossipMap := List (Nat × LRU)
deriving DecidableEq, Repr

def lookupCache : GossipMap → Nat → Option LRU
  | [], _ => none
  | (q, c) :: rest, p => if q = p then some c else lookupCache rest p

def updateCache : GossipMap → Nat → LRU → GossipMap
  | [], p, c => [(p, c)]
  | (q, c0) :: rest, p, c =>
    if q = p then (p, c) :: rest else (q, c0) :: updateCache rest p c

/-- Environment of `sendTxs`: the local node identity, the configured
per-peer cache capacity, the outcome of the `Proposers(GossipProposerDiff,
GossipProposerDepth)` query (with the set's iteration order fixed as a
list), and oracles for the outcomes of `MarshalTxs`, `SendAppGossip` and
`SendAppGossipSpecific`. -/
structure SendEnv where
  nodeID : Nat
  peerCacheSize : Nat
  gossipProposers : Except Unit (List Nat)
  marshalOk : List Nat → Bool
  sendOk : Bool
  sendSpecificOk : Nat → Bool

/-- The per-peer batch filter of `sendTxs` (`gossiper/proposer.go` lines
113-120): skip transactions already in the peer's sent cache (`Get`),
marking each selected transaction as sent (`Put`) as it is selected. -/
def filterForPeer (c : LRU) : List Tx → List Tx × LRU
  | [] => ([], c)
  | tx :: rest =>
    let gr := c.get tx.id
    if gr.1 then filterForPeer gr.2 rest
    else
      let c2 := gr.2.put tx.id
      let res := filterForPeer c2 rest
      (tx :: res.1, res.2)

/-- The spec's `shouldSend(peer, txID)` predicate as the code implements
it: a transaction is sent to a peer exactly when its ID misses in that
peer's sent cache. -/
def shouldSend (c : LRU) (t : Nat) : Bool := !(c.get t).1

/-- The all-to-all fallback branch of `sendTxs` (`gossiper/proposer.go`
lines 79-99): marshal the whole batch once and broadcast it.  Result is
`(errored, attempted sends, updated gossipedTxs map)`. -/
def sendBroadcast (env : SendEnv) (m : GossipMap) (txs : List Tx) :
    Bool × List SendEv × GossipMap :=
  let bIds := txs.map (·.id)
  if env.marshalOk bIds then
    if env.sendOk then (false, [.broadcast bIds], m)
    else (true, [.broadcast bIds], m)
  else (true, [], m)

/-- The targeted-send loop of `sendTxs` (`gossiper/proposer.go` lines
101-142): for each proposer, skip self, lazily create the peer's sent
cache, filter the batch through it, skip the peer when nothing remains,
otherwise marshal and send to that single peer; marshal or send failure
returns the error immediately. -/
def sendLoop (env : SendEnv) (txs : List Tx) :
    List Nat → GossipMap → Bool × List SendEv × GossipMap
  | [], m => (false, [], m)
  | p :: rest, m =>
    if p = env.nodeID then sendLoop env txs rest m
    else
      let c := (lookupCache m p).getD ⟨env.peerCacheSize, []⟩
      let fr := filterForPeer c txs
      let m' := updateCache m p fr.2
      if fr.1.isEmpty then sendLoop env txs rest m'
      else
        let bIds := fr.1.map (·.id)
        if env.marshalOk bIds then
          if env.sendSpecificOk p then
            let res := sendLoop env txs rest m'
            (res.1, .targeted p bIds :: res.2.1, res.2.2)
          else (true, [.targeted p bIds], m')
        else (true, [], m')

/-- `sendTxs` (`gossiper/proposer.go` lines 70-144): query the proposer
window; on failure or an empty window fall back to all-to-all broadcast,
otherwise run the targeted-send loop over the window. -/
def sendTxs (env : SendEnv) (m : GossipMap) (txs : List Tx) :
    Bool × List SendEv × GossipMap :=
  match env.gossipProposers with
  | .error _ => sendBroadcast env m txs
  | .ok ps => if ps.isEmpty then sendBroadcast env m txs else sendLoop env txs ps m

/-- The preferred block as the gossiper reads it (`blk.Tmstmp`,
`blk.Hght`). -/
structure Block where
  tmstmp : Int
  hght : Nat
deriving DecidableEq, Repr

/-- Mutable gossiper state: the per-peer sent caches and the global
received cache. -/
structure GossiperState where
  gossipedTxs : GossipMap
  receivedTxs : LRU
deriving DecidableEq, Repr

/-- Environment of one `TriggerGossip` call: outcomes of
`vm.PreferredBlock`, `blk.State()` and `chain.GenerateExecutionContext`,
the wall-clock time, the config and rules, the mempool's candidate
sequence in priority order, and the sending environment. -/
structure TGEnv where
  preferredBlock : Except Unit Block
  stateOk : Bool
  ectxOk : Bool
  now : Int
  cfg : ProposerConfig
  rules : Rules
  candidates : List Tx
  sendEnv : SendEnv

/-- `TriggerGossip` (`gossiper/proposer.go` lines 148-237): fetch the
preferred block (returning its error on failure), build the execution
context, run the batch-selection pass over the mempool, return with no
sends when the batch is empty, otherwise hand the batch to `sendTxs`.
Result is `(errored, attempted sends, updated gossiper state)`. -/
def triggerGossip (env : TGEnv) (g : GossiperState) :
    Bool × List SendEv × GossiperState :=
  match env.preferredBlock with
  | .error _ => (true, [], g)
  | .ok _blk =>
    if env.stateOk = false then (true, [], g)
    else if env.ectxOk = false then (true, [], g)
    else
      let res := buildGossip env.cfg env.rules env.now env.candidates
        ⟨[], 0, g.receivedTxs⟩
      let g1 : GossiperState := { g with receivedTxs := res.1.received }
      if res.1.txs.isEmpty then (false, [], g1)
      else
        let sres := sendTxs env.sendEnv g1.gossipedTxs res.1.txs
        (sres.1, sres.2.1, { g1 with gossipedTxs := sres.2.2 })

/-- `proposerWindow = int64(proposer.MaxDelay.Seconds())`
(`gossiper/proposer.go` line 22); `proposer.MaxDelay` is the consensus
library's maximum proposal delay, 30 seconds. -/
def proposerWindow : Int := 30

/-- Environment of one tick of the `Run` loop: the local node identity,
the outcome of the `Proposers(BuildProposerDiff, 1)` query, the `Run`-level
preferred-block fetch (the block value the VM returned together with
whether the fetch reported an error; per the spec the value is used for
the staleness check even when the fetch reported an error), the wall-clock
time, and the environment for the inner `TriggerGossip` call. -/
structure RunEnv where
  nodeID : Nat
  buildProposers : Except Unit (List Nat)
  runPref : Block × Bool
  now : Int
  tg : TGEnv

/-- Outcome of one tick of the `Run` loop. -/
inductive TickOutcome where
  | skipProposer : TickOutcome
  | skipStale : TickOutcome
  | gossipAttempt (r : Bool × List SendEv × GossiperState) : TickOutcome
deriving DecidableEq, Repr

/-- The staleness check and gossip invocation of a `Run` tick
(`gossiper/proposer.go` lines 328-347): skip when the preferred block's
timestamp plus the proposer window is behind now, otherwise invoke
`TriggerGossip` (whose error is only logged). -/
def runTickStale (env : RunEnv) (g : GossiperState) : TickOutcome :=
  if env.runPref.1.tmstmp + proposerWindow < env.now then .skipStale
  else .gossipAttempt (triggerGossip env.tg g)

/-- One tick of the `Run` loop (`gossiper/proposer.go` lines 310-347):
the imminent-proposer check (skip when the build-proximity window query
succeeds and contains the local node; a query failure is logged and the
tick proceeds), then the staleness check and the gossip invocation. -/
def runTick (env : RunEnv) (g : GossiperState) : TickOutcome :=
  match env.buildProposers with
  | .ok ps => if env.nodeID ∈ ps then .skipProposer else runTickStale env g
  | .error _ => runTickStale env g

/-- Per-transaction outcome of `vm.Submit`: no error, the expected
`chain.ErrDuplicateTx`, or any other error (both error kinds are only
logged). -/
inductive SubmitRes where
  | ok : SubmitRes
  | duplicate : SubmitRes
  | otherErr : SubmitRes
deriving DecidableEq, Repr

/-- Environment of one `HandleAppGossip` call: the source peer, the
outcome of `chain.UnmarshalTxs` on the message, the outcome of
`vm.IsValidator` (the boolean value the VM returned together with whether
the lookup reported an error; the code uses the value either way), and
the per-transaction outcomes of `vm.Submit`. -/
structure HandleEnv where
  nodeID : Nat
  unmarshal : Except Unit (List Tx)
  isValidator : Bool × Bool
  submitResults : List SubmitRes
  peerCacheSize : Nat

/-- `HandleAppGossip` (`gossiper/proposer.go` lines 239-299): drop
undeserializable messages, mark incoming transactions in the source
validator's per-peer cache and unconditionally in the global received
cache, submit them to the mempool logging per-transaction failures, and
return success (`nil`) on every path. -/
def handleAppGossip (env : HandleEnv) (g : GossiperState) :
    Option Unit × GossiperState :=
  match env.unmarshal with
  | .error _ => (none, g)
  | .ok txs =>
    let isVal := env.isValidator.1
    let g1 : GossiperState :=
      if isVal then
        match lookupCache g.gossipedTxs env.nodeID with
        | some _ => g
        | none =>
          { g with gossipedTxs :=
              updateCache g.gossipedTxs env.nodeID ⟨env.peerCacheSize, []⟩ }
      else g
    let g2 := txs.foldl
      (fun acc tx =>
        let acc1 : GossiperState :=
          if isVal then
            { acc with gossipedTxs :=
                (updateCache acc.gossipedTxs env.nodeID
                  (((lookupCache acc.gossipedTxs env.nodeID).getD
                      ⟨env.peerCacheSize, []⟩).put tx.id)) }
          else acc
        { acc1 with receivedTxs := acc1.receivedTxs.put tx.id })
      g1
    (none, g2)

/-! Balance storage of the tokenvm example
(`examples/tokenvm/storage/storage.go`).  The underlying
`chain.Database` is modelled as an association list from (public key,
asset) to the stored `uint64` balance; `GetValue` on a missing key
reports `database.ErrNotFound`. -/

/-- Database errors distinguished by the storage code: the not-found
sentinel versus any other failure. -/
inductive DBErr where
  | notFound : DBErr
  | internal : DBErr
deriving DecidableEq, Repr

/-- Errors surfaced by `SubBalance`: a wrapped `ErrInvalidBalance` or a
database failure. -/
inductive StorageErr where
  | invalidBalance : StorageErr
  | db (e : DBErr) : StorageErr
deriving DecidableEq, Repr

/-- The balance column of the state, keyed by (public key, asset). -/
def Store := List ((Nat × Nat) × Nat)
deriving DecidableEq, Repr

def dbLookup : Store → (Nat × Nat) → Option Nat
  | [], _ => none
  | e :: rest, k => if e.1 = k then some e.2 else dbLookup rest k

/-- `db.GetValue`: a missing key is `database.ErrNotFound`. -/
def dbGetValue (db : Store) (k : Nat × Nat) : Except DBErr Nat :=
  match dbLookup db k with
  | some v => .ok v
  | none => .error .notFound

/-- `db.Remove`. -/
def dbRemove : Store → (Nat × Nat) → Store
  | [], _ => []
  | e :: rest, k => if e.1 = k then dbRemove rest k else e :: dbRemove rest k

/-- `db.Insert` (overwrite semantics). -/
def dbInsert (db : Store) (k : Nat × Nat) (v : Nat) : Store :=
  (k, v) :: dbRemove db k

/-- `innerGetBalance`: `ErrNotFound` is mapped to balance 0 with no
error; other errors propagate. -/
def innerGetBalance : Except DBErr Nat → Except DBErr Nat
  | .error .notFound => .ok 0
  | .error e => .error e
  | .ok v => .ok v

/-- `GetBalance`. -/
def getBalance (db : Store) (k : Nat × Nat) : Except DBErr Nat :=
  innerGetBalance (dbGetValue db k)

/-- `SetBalance`. -/
def setBalance (db : Store) (k : Nat × Nat) (balance : Nat) : Store :=
  dbInsert db k balance

/-- `DeleteBalance`. -/
def deleteBalance (db : Store) (k : Nat × Nat) : Store :=
  dbRemove db k

/-- `SubBalance` (`examples/tokenvm/storage/storage.go` lines 193-221):
read the balance, fail with a wrapped `ErrInvalidBalance` when
`smath.Sub` underflows (`amount` exceeds the balance), remove the record
entirely when the new balance is 0, otherwise store the new balance.
Result is `(error, resulting store)`; error paths leave the store
unchanged. -/
def subBalance (db : Store) (k : Nat × Nat) (amount : Nat) :
    Option StorageErr × Store :=
  match getBalance db k with
  | .error e => (some (.db e), db)
  | .ok bal =>
    if bal < amount then (some .invalidBalance, db)
    else if bal - amount = 0 then (none, dbRemove db k)
    else (none, setBalance db k (bal - amount))

/-- Sum of the `MaxUnits` costs of a list of transactions (exact,
unwrapped arithmetic). -/
def unitSum : List Tx → Nat
  | [] => 0
  | tx :: rest => tx.units + unitSum rest

/-! Concrete fixtures used by witnesses and counterexamples. -/

/-- A well-formed candidate transaction: valid under `PreExecute`, with a
successfully computed unit cost. -/
def mkTx (i : Nat) (ts : Int) (u : Nat) : Tx :=
  ⟨i, ts, u, false, true, true, true, false⟩

def exSendEnv : SendEnv :=
  ⟨99, 2, .ok [5], fun _ => true, true, fun _ => true⟩

def exG : GossiperState := ⟨[], ⟨65536, []⟩⟩

def exTGEnv : TGEnv :=
  ⟨.ok ⟨0, 1⟩, true, true, 0, defaultProposerConfig, ⟨70, 10⟩,
    [mkTx 1 100 30], exSendEnv⟩

def exTGEnvErr : TGEnv := { exTGEnv with preferredBlock := .error () }

def exRunEnv : RunEnv := ⟨7, .ok [7], (⟨0, 1⟩, false), 0, exTGEnv⟩

/-! Helper lemmas about the LRU model and the per-peer filter. -/

theorem LRU.get_fst_iff (c : LRU) (k : Nat) : (c.get k).1 = true ↔ k ∈ c.keys := by
  unfold LRU.get
  split <;> simp_all

theorem LRU.get_of_not_mem {c : LRU} {k : Nat} (h : k ∉ c.keys) :
    c.get k = (false, c) := by
  unfold LRU.get
  simp [h]

theorem LRU.mem_get_keys {c : LRU} (k : Nat) {x : Nat} :
    x ∈ (c.get k).2.keys ↔ x ∈ c.keys := by
  unfold LRU.get
  split
  · next h =>
    simp only
    constructor
    · intro hx
      rcases List.mem_cons.mp hx with rfl | hx
      · exact h
      · exact List.mem_of_mem_erase hx
    · intro hx
      by_cases hxk : x = k
      · subst hxk
        exact List.mem_cons_self _ _
      · exact List.mem_cons_of_mem _ ((List.mem_erase_of_ne hxk).mpr hx)
  · exact Iff.rfl

theorem LRU.get_keys_length (c : LRU) (k : Nat) :
    (c.get k).2.keys.length = c.keys.length := by
  unfold LRU.get
  split
  · next h =>
    have hpos : 0 < c.keys.length := List.length_pos.mpr (List.ne_nil_of_mem h)
    simp [List.length_erase_of_mem h]
    omega
  · rfl

theorem LRU.mem_put_self {c : LRU} {k : Nat} (h : 0 < c.size) :
    k ∈ (c.put k).keys := by
  unfold LRU.put
  split
  · exact List.mem_cons_self _ _
  · cases hs : c.size with
    | zero => omega
    | succ n =>
      simp only [List.take_succ_cons]
      exact List.mem_cons_self _ _

theorem LRU.mem_put_of_length_lt {c : LRU} {k t : Nat} (ht : t ∈ c.keys)
    (hlen : c.keys.length < c.size) : t ∈ (c.put k).keys := by
  unfold LRU.put
  split
  · next hk =>
    by_cases htk : t = k
    · subst htk
      exact List.mem_cons_self _ _
    · exact List.mem_cons_of_mem _ ((List.mem_erase_of_ne htk).mpr ht)
  · rw [List.take_of_length_le (by simp; omega)]
    exact List.mem_cons_of_mem _ ht

theorem filterForPeer_sub {l : List Tx} :
    ∀ {c : LRU}, ∀ tx ∈ (filterForPeer c l).1, tx ∈ l := by
  induction l with
  | nil =>
    intro c tx h
    simp [filterForPeer] at h
  | cons hd tl ih =>
    intro c tx h
    by_cases hg : (c.get hd.id).1
    · rw [show filterForPeer c (hd :: tl) = filterForPeer (c.get hd.id).2 tl by
        simp [filterForPeer, hg]] at h
      exact List.mem_cons_of_mem _ (ih _ h)
    · simp only [filterForPeer] at h
      rw [if_neg (by simp [hg])] at h
      rcases List.mem_cons.mp h with rfl | h
      · exact List.mem_cons_self _ _
      · exact List.mem_cons_of_mem _ (ih _ h)

/-- One-step unfolding of `buildGossip` on a non-empty candidate list. -/
theorem buildGossip_cons (cfg : ProposerConfig) (rules : Rules) (now : Int)
    (tx : Tx) (rest : List Tx) (st : SelSt) :
    buildGossip cfg rules now (tx :: rest) st
      = (let r := gossipSelectStep cfg rules now st tx
         let d : Disp := .examined (r.st.txs.length != st.txs.length) r.restore
         if r.cont then
           ((buildGossip cfg rules now rest r.st).1,
             (tx, d) :: (buildGossip cfg rules now rest r.st).2)
         else (r.st, (tx, d) :: rest.map (fun t => (t, Disp.unexamined)))) := rfl

/-- The selection callback either leaves the batch unchanged or appends
the candidate, and it appends only when the candidate's ID misses in the
global received cache. -/
theorem gossipSelectStep_txs (cfg : ProposerConfig) (rules : Rules) (now : Int)
    (st : SelSt) (tx : Tx) :
    (gossipSelectStep cfg rules now st tx).st.txs = st.txs ∨
      ((gossipSelectStep cfg rules now st tx).st.txs = st.txs ++ [tx]
        ∧ tx.id ∉ st.received.keys) := by
  simp only [gossipSelectStep]
  split_ifs with h1 h2 h3 h4 h5 h6
  · exact Or.inl rfl
  · exact Or.inl rfl
  · exact Or.inl rfl
  · exact Or.inl rfl
  · exact Or.inl rfl
  · exact Or.inl rfl
  · exact Or.inr ⟨rfl, fun hm => h3 ((LRU.get_fst_iff _ _).mpr hm)⟩

/-- The selection callback never changes which IDs are in the global
received cache (its `Get` only promotes recency). -/
theorem gossipSelectStep_received_mem (cfg : ProposerConfig) (rules : Rules)
    (now : Int) (st : SelSt) (tx : Tx) (x : Nat) :
    x ∈ (gossipSelectStep cfg rules now st tx).st.received.keys
      ↔ x ∈ st.received.keys := by
  simp only [gossipSelectStep]
  split_ifs with h1 h2 h3 h4 h5 h6
  · exact Iff.rfl
  · exact Iff.rfl
  · exact LRU.mem_get_keys _
  · exact LRU.mem_get_keys _
  · exact LRU.mem_get_keys _
  · exact LRU.mem_get_keys _
  · exact LRU.mem_get_keys _

/-- A transaction in the batch produced by a pass was either already in
the accumulated batch or has an ID outside the global received cache. -/
theorem buildGossip_foreign_excluded (cfg : ProposerConfig) (rules : Rules)
    (now : Int) :
    ∀ (l : List Tx) (st : SelSt) (t : Nat), t ∈ st.received.keys →
      ∀ tx ∈ (buildGossip cfg rules now l st).1.txs, tx ∈ st.txs ∨ tx.id ≠ t := by
  intro l
  induction l with
  | nil =>
    intro st t _ tx htx
    exact Or.inl htx
  | cons hd tl ih =>
    intro st t ht tx htx
    have hsplit := gossipSelectStep_txs cfg rules now st hd
    rw [buildGossip_cons] at htx
    by_cases hc : (gossipSelectStep cfg rules now st hd).cont = true
    · simp only [hc, if_true] at htx
      have ht' : t ∈ (gossipSelectStep cfg rules now st hd).st.received.keys :=
        (gossipSelectStep_received_mem cfg rules now st hd t).mpr ht
      rcases ih _ t ht' tx htx with hmem | hne
      · rcases hsplit with he | ⟨he, hid⟩
        · rw [he] at hmem
          exact Or.inl hmem
        · rw [he] at hmem
          rcases List.mem_append.mp hmem with h1 | h1
          · exact Or.inl h1
          · have : tx = hd := by simpa using h1
            subst this
            exact Or.inr fun hteq => hid (hteq ▸ ht)
      · exact Or.inr hne
    · simp only [hc, if_false, Bool.not_eq_true] at htx
      rw [if_neg (by simp [hc])] at htx
      simp only at htx
      rcases hsplit with he | ⟨he, hid⟩
      · rw [he] at htx
        exact Or.inl htx
      · rw [he] at htx
        rcases List.mem_append.mp htx with h1 | h1
        · exact Or.inl h1
        · have : tx = hd := by simpa using h1
          subst this
          exact Or.inr fun hteq => hid (hteq ▸ ht)

/-! Claim theorems. -/

/-- C8: an expired candidate (`timestamp < now`) is excluded from the
batch and dropped from the mempool (not restored) with scanning
continuing, while a near-expiry candidate (`timestamp ≥ now` but
`timestamp - now < minLife`) is excluded yet restored to the mempool,
with scanning continuing. -/
theorem c8_expiry_rules :
    (∀ (cfg : ProposerConfig) (rules : Rules) (now : Int) (st : SelSt)
        (tx : Tx) (rest : List Tx),
        tx.timestamp < now →
        buildGossip cfg rules now (tx :: rest) st
          = ((buildGossip cfg rules now rest st).1,
              (tx, .examined false false) :: (buildGossip cfg rules now rest st).2)) ∧
    (∀ (cfg : ProposerConfig) (rules : Rules) (now : Int) (st : SelSt)
        (tx : Tx) (rest : List Tx),
        ¬ tx.timestamp < now → tx.timestamp - now < cfg.gossipMinLife →
        buildGossip cfg rules now (tx :: rest) st
          = ((buildGossip cfg rules now rest st).1,
              (tx, .examined false true) :: (buildGossip cfg rules now rest st).2)) := by
  constructor
  · intro cfg rules now st tx rest hts
    have hstep : gossipSelectStep cfg rules now st tx = ⟨true, false, false, st⟩ := by
      simp [gossipSelectStep, hts]
    rw [buildGossip_cons, hstep]
    simp
  · intro cfg rules now st tx rest hts hlife
    have hstep : gossipSelectStep cfg rules now st tx = ⟨true, true, false, st⟩ := by
      simp [gossipSelectStep, hts, hlife]
    rw [buildGossip_cons, hstep]
    simp

/-- C8 witness: an expired transaction is dropped and a near-expiry one
is restored, at concrete inputs. -/
theorem c8_expiry_rules_witness :
    buildGossip defaultProposerConfig ⟨70, 10⟩ 0 [mkTx 1 (-1) 30] ⟨[], 0, ⟨65536, []⟩⟩
      = ((buildGossip defaultProposerConfig ⟨70, 10⟩ 0 [] ⟨[], 0, ⟨65536, []⟩⟩).1,
          (mkTx 1 (-1) 30, .examined false false)
            :: (buildGossip defaultProposerConfig ⟨70, 10⟩ 0 [] ⟨[], 0, ⟨65536, []⟩⟩).2) ∧
    buildGossip defaultProposerConfig ⟨70, 10⟩ 0 [mkTx 2 3 30] ⟨[], 0, ⟨65536, []⟩⟩
      = ((buildGossip defaultProposerConfig ⟨70, 10⟩ 0 [] ⟨[], 0, ⟨65536, []⟩⟩).1,
          (mkTx 2 3 30, .examined false true)
            :: (buildGossip defaultProposerConfig ⟨70, 10⟩ 0 [] ⟨[], 0, ⟨65536, []⟩⟩).2) :=
  ⟨c8_expiry_rules.1 defaultProposerConfig ⟨70, 10⟩ 0 ⟨[], 0, ⟨65536, []⟩⟩
      (mkTx 1 (-1) 30) [] (by decide),
   c8_expiry_rules.2 defaultProposerConfig ⟨70, 10⟩ 0 ⟨[], 0, ⟨65536, []⟩⟩
      (mkTx 2 3 30) [] (by decide) (by decide)⟩

/-- C4 counterexample: a transaction whose ID (7) sits in the Global
Received Cache but whose timestamp is already past is examined, excluded
from the batch, and **dropped** (`kept = false`) rather than restored —
the expiration rule fires before the received-cache rule, so the claim's
"T is restored to the mempool" is false for this input. -/
theorem c4_received_cache_counterexample :
    7 ∈ ((⟨65536, [7]⟩ : LRU)).keys ∧
    buildGossip defaultProposerConfig ⟨70, 10⟩ 0 [mkTx 7 (-1) 30]
        ⟨[], 0, ⟨65536, [7]⟩⟩
      = (⟨[], 0, ⟨65536, [7]⟩⟩, [(mkTx 7 (-1) 30, .examined false false)]) :=
  ⟨by decide, by decide⟩

/-- C4 amended: a transaction whose ID is in the Global Received Cache at
examination time is never included in the batch; it is kept in the
mempool provided it is not already expired (`now ≤ timestamp`) — an
expired transaction is dropped by the earlier expiration rule even when
its ID is in the cache. -/
theorem c4_received_cache_amended :
    (∀ (cfg : ProposerConfig) (rules : Rules) (now : Int) (l : List Tx)
        (st : SelSt) (t : Nat),
        t ∈ st.received.keys →
        ∀ tx ∈ (buildGossip cfg rules now l st).1.txs, tx ∈ st.txs ∨ tx.id ≠ t) ∧
    (∀ (cfg : ProposerConfig) (rules : Rules) (now : Int) (st : SelSt) (tx : Tx),
        tx.id ∈ st.received.keys → now ≤ tx.timestamp →
        (gossipSelectStep cfg rules now st tx).cont = true ∧
        (gossipSelectStep cfg rules now st tx).restore = true ∧
        (gossipSelectStep cfg rules now st tx).st.txs = st.txs) ∧
    (∀ (cfg : ProposerConfig) (rules : Rules) (now : Int) (st : SelSt) (tx : Tx),
        tx.timestamp < now →
        gossipSelectStep cfg rules now st tx = ⟨true, false, false, st⟩) := by
  refine ⟨?_, ?_, ?_⟩
  · exact fun cfg rules now => buildGossip_foreign_excluded cfg rules now
  · intro cfg rules now st tx hmem hle
    have h1 : ¬ tx.timestamp < now := not_lt.mpr hle
    have hg : (st.received.get tx.id).1 = true := (LRU.get_fst_iff _ _).mpr hmem
    by_cases h2 : tx.timestamp - now < cfg.gossipMinLife
    · simp [gossipSelectStep, h1, h2]
    · simp [gossipSelectStep, h1, h2, hg]
  · intro cfg rules now st tx hts
    simp [gossipSelectStep, hts]

/-- C4 witness: the amended facts at concrete inputs. -/
theorem c4_received_cache_amended_witness :
    (mkTx 1 100 30 ∈ ([mkTx 1 100 30] : List Tx) ∨ (mkTx 1 100 30).id ≠ 7) ∧
    ((gossipSelectStep defaultProposerConfig ⟨70, 10⟩ 0
        ⟨[], 0, ⟨65536, [7]⟩⟩ (mkTx 7 100 30)).cont = true ∧
      (gossipSelectStep defaultProposerConfig ⟨70, 10⟩ 0
        ⟨[], 0, ⟨65536, [7]⟩⟩ (mkTx 7 100 30)).restore = true ∧
      (gossipSelectStep defaultProposerConfig ⟨70, 10⟩ 0
        ⟨[], 0, ⟨65536, [7]⟩⟩ (mkTx 7 100 30)).st.txs = SelSt.txs ⟨[], 0, ⟨65536, [7]⟩⟩) ∧
    gossipSelectStep defaultProposerConfig ⟨70, 10⟩ 0
        ⟨[], 0, ⟨65536, []⟩⟩ (mkTx 1 (-1) 30)
      = ⟨true, false, false, ⟨[], 0, ⟨65536, []⟩⟩⟩ :=
  ⟨c4_received_cache_amended.1 defaultProposerConfig ⟨70, 10⟩ 0 []
      ⟨[mkTx 1 100 30], 0, ⟨65536, [7]⟩⟩ 7 (by decide) (mkTx 1 100 30) (by decide),
   c4_received_cache_amended.2.1 defaultProposerConfig ⟨70, 10⟩ 0
      ⟨[], 0, ⟨65536, [7]⟩⟩ (mkTx 7 100 30) (by decide) (by decide),
   c4_received_cache_amended.2.2 defaultProposerConfig ⟨70, 10⟩ 0
      ⟨[], 0, ⟨65536, []⟩⟩ (mkTx 1 (-1) 30) (by decide)⟩

/-- Every send the targeted loop attempts is a per-peer targeted send. -/
theorem sendLoop_events_targeted (env : SendEnv) (txs : List Tx) :
    ∀ (ps : List Nat) (m : GossipMap), ∀ ev ∈ (sendLoop env txs ps m).2.1,
      ∃ p ids, ev = SendEv.targeted p ids := by
  intro ps
  induction ps with
  | nil =>
    intro m ev h
    simp [sendLoop] at h
  | cons p rest ih =>
    intro m ev h
    simp only [sendLoop] at h
    split_ifs at h with h1 h2 h3 h4
    · exact ih m ev h
    · exact ih _ ev h
    · rcases List.mem_cons.mp h with rfl | h
      · exact ⟨p, _, rfl⟩
      · exact ih _ ev h
    · rcases List.mem_cons.mp h with rfl | h
      · exact ⟨p, _, rfl⟩
      · simp at h
    · simp at h

/-- C3: `sendTxs` attempts an all-to-all broadcast of the whole batch
exactly when the proposer-window query fails or returns an empty set
(given that marshaling the batch succeeds, the broadcast is the only
send); when the query returns a non-empty set, every attempted send is a
per-peer targeted send. -/
theorem c3_broadcast_fallback :
    (∀ (env : SendEnv) (m : GossipMap) (txs : List Tx) (e : Unit),
        env.gossipProposers = .error e →
        env.marshalOk (txs.map (·.id)) = true →
        (sendTxs env m txs).2.1 = [.broadcast (txs.map (·.id))]) ∧
    (∀ (env : SendEnv) (m : GossipMap) (txs : List Tx),
        env.gossipProposers = .ok [] →
        env.marshalOk (txs.map (·.id)) = true →
        (sendTxs env m txs).2.1 = [.broadcast (txs.map (·.id))]) ∧
    (∀ (env : SendEnv) (m : GossipMap) (txs : List Tx) (ps : List Nat),
        env.gossipProposers = .ok ps → ps ≠ [] →
        ∀ ev ∈ (sendTxs env m txs).2.1, ∃ p ids, ev = SendEv.targeted p ids) := by
  refine ⟨?_, ?_, ?_⟩
  · intro env m txs e hq hm
    unfold sendTxs
    rw [hq]
    unfold sendBroadcast
    rw [if_pos hm]
    by_cases hs : env.sendOk
    · rw [if_pos hs]
    · rw [if_neg hs]
  · intro env m txs hq hm
    unfold sendTxs
    rw [hq]
    dsimp only
    rw [if_pos (by decide)]
    unfold sendBroadcast
    rw [if_pos hm]
    by_cases hs : env.sendOk
    · rw [if_pos hs]
    · rw [if_neg hs]
  · intro env m txs ps hq hne ev hev
    unfold sendTxs at hev
    rw [hq] at hev
    dsimp only at hev
    rw [if_neg (by simpa using hne)] at hev
    exact sendLoop_events_targeted env txs ps m ev hev

/-- C3 witness: broadcast on a failed query, broadcast on an empty
window, and targeted-only sends on a non-empty window, at concrete
inputs. -/
theorem c3_broadcast_fallback_witness :
    (sendTxs { exSendEnv with gossipProposers := .error () } [] [mkTx 1 100 30]).2.1
      = [.broadcast [1]] ∧
    (sendTxs { exSendEnv with gossipProposers := .ok [] } [] [mkTx 1 100 30]).2.1
      = [.broadcast [1]] ∧
    (∃ p ids, SendEv.targeted 5 [1] = SendEv.targeted p ids) :=
  ⟨c3_broadcast_fallback.1 _ [] [mkTx 1 100 30] () rfl rfl,
   c3_broadcast_fallback.2.1 _ [] [mkTx 1 100 30] rfl rfl,
   c3_broadcast_fallback.2.2 exSendEnv [] [mkTx 1 100 30] [5] rfl (by decide)
     (SendEv.targeted 5 [1]) (by decide)⟩

/-- C6: for every source peer and raw payload — undeserializable bytes,
failing validator lookup, per-transaction submission errors included —
`HandleAppGossip` returns success (`nil`) to its caller; no error is
propagated upward. -/
theorem c6_handle_app_gossip_always_ok (env : HandleEnv) (g : GossiperState) :
    (handleAppGossip env g).1 = none := by
  cases h : env.unmarshal <;> simp [handleAppGossip, h]

/-- C7: on a Scheduler Loop tick, a successful build-proximity proposer
query containing the local node suppresses gossip (`skipProposer`); a
failed query makes the tick proceed exactly as if the node were not an
imminent proposer; and a preferred block whose timestamp plus the
proposal-delay window is behind the wall clock suppresses gossip. -/
theorem c7_run_tick_throttling :
    (∀ (env : RunEnv) (g : GossiperState) (ps : List Nat),
        env.buildProposers = .ok ps → env.nodeID ∈ ps →
        runTick env g = .skipProposer) ∧
    (∀ (env : RunEnv) (g : GossiperState) (e : Unit),
        env.buildProposers = .error e →
        runTick env g = runTickStale env g) ∧
    (∀ (env : RunEnv) (g : GossiperState),
        env.runPref.1.tmstmp + proposerWindow < env.now →
        runTick env g = .skipProposer ∨ runTick env g = .skipStale) := by
  refine ⟨?_, ?_, ?_⟩
  · intro env g ps hq hmem
    simp [runTick, hq, hmem]
  · intro env g e hq
    simp [runTick, hq]
  · intro env g hstale
    unfold runTick
    cases hq : env.buildProposers with
    | ok ps =>
      by_cases hmem : env.nodeID ∈ ps
      · simp [hmem]
      · simp [hmem, runTickStale, hstale]
    | error e => simp [runTickStale, hstale]

/-- C7 witness: concrete instances of the three tick-throttling facts. -/
theorem c7_run_tick_throttling_witness :
    runTick exRunEnv exG = .skipProposer ∧
    runTick { exRunEnv with buildProposers := .error () } exG
      = runTickStale { exRunEnv with buildProposers := .error () } exG ∧
    (runTick { exRunEnv with buildProposers := .ok [3], now := 100 } exG
        = .skipProposer ∨
      runTick { exRunEnv with buildProposers := .ok [3], now := 100 } exG
        = .skipStale) :=
  ⟨c7_run_tick_throttling.1 exRunEnv exG [7] rfl (by decide),
   c7_run_tick_throttling.2.1 _ exG () rfl,
   c7_run_tick_throttling.2.2 _ exG (by decide)⟩

/-- C2 counterexample: with the preferred-block fetch failing and a
gossipable candidate pending, `TriggerGossip` aborts with the error and
attempts no sends, while the identical environment with a successful
fetch does gossip the candidate — so the batch-building pass does abort
and suppress gossip on account of that failure, contrary to the claim. -/
theorem c2_preferred_block_failure_counterexample :
    triggerGossip exTGEnvErr exG = (true, [], exG) ∧
    (triggerGossip exTGEnv exG).2.1 = [.targeted 5 [1]] :=
  ⟨rfl, by decide⟩

/-- C2 amended: a preferred-block fetch failure in `TriggerGossip` aborts
the batch-building pass with the error and no sends; the Scheduler Loop,
by contrast, ignores the error flag of its own preferred-block fetch (the
failure is only logged) and the tick proceeds identically. -/
theorem c2_preferred_block_failure_amended :
    (∀ (env : TGEnv) (g : GossiperState) (e : Unit),
        env.preferredBlock = .error e →
        triggerGossip env g = (true, [], g)) ∧
    (∀ (env : RunEnv) (g : GossiperState) (b : Block),
        runTick { env with runPref := (b, true) } g
          = runTick { env with runPref := (b, false) } g) := by
  constructor
  · intro env g e h
    simp [triggerGossip, h]
  · intro env g b
    unfold runTick runTickStale
    cases h : env.buildProposers <;> simp

/-- C2 witness: the amended facts at concrete inputs. -/
theorem c2_preferred_block_failure_amended_witness :
    triggerGossip exTGEnvErr ⟨[(3, ⟨2, [9]⟩)], ⟨65536, []⟩⟩
      = (true, [], ⟨[(3, ⟨2, [9]⟩)], ⟨65536, []⟩⟩) ∧
    runTick { exRunEnv with runPref := (⟨0, 1⟩, true) } exG
      = runTick { exRunEnv with runPref := (⟨0, 1⟩, false) } exG :=
  ⟨c2_preferred_block_failure_amended.1 exTGEnvErr _ () rfl,
   c2_preferred_block_failure_amended.2 exRunEnv exG ⟨0, 1⟩⟩

theorem LRU.get_size (c : LRU) (k : Nat) : (c.get k).2.size = c.size := by
  unfold LRU.get
  split <;> rfl

theorem LRU.put_size (c : LRU) (k : Nat) : (c.put k).size = c.size := by
  unfold LRU.put
  split <;> rfl

theorem unitSum_append (l : List Tx) (tx : Tx) :
    unitSum (l ++ [tx]) = unitSum l + tx.units := by
  induction l with
  | nil => simp [unitSum]
  | cons hd tl ih =>
    show hd.units + unitSum (tl ++ [tx]) = unitSum (hd :: tl) + tx.units
    rw [ih]
    show hd.units + (unitSum tl + tx.units) = hd.units + unitSum tl + tx.units
    omega

/-- The selection callback either leaves batch and accumulator unchanged,
or (when the wrapped sum fits the budget) appends the candidate and adds
its units to the accumulator, continuing exactly while the batch is still
below `maxBlockTxs`. -/
theorem gossipSelectStep_units (cfg : ProposerConfig) (rules : Rules) (now : Int)
    (st : SelSt) (tx : Tx) :
    ((gossipSelectStep cfg rules now st tx).st.totalUnits = st.totalUnits ∧
      (gossipSelectStep cfg rules now st tx).st.txs = st.txs) ∨
    (¬ rules.maxBlockUnits < (tx.units + st.totalUnits) % u64Mod ∧
      (gossipSelectStep cfg rules now st tx).st.totalUnits
        = (st.totalUnits + tx.units) % u64Mod ∧
      (gossipSelectStep cfg rules now st tx).st.txs = st.txs ++ [tx] ∧
      (gossipSelectStep cfg rules now st tx).cont
        = decide ((st.txs ++ [tx]).length < rules.maxBlockTxs)) := by
  simp only [gossipSelectStep]
  split_ifs with h1 h2 h3 h4 h5 h6
  · exact Or.inl ⟨rfl, rfl⟩
  · exact Or.inl ⟨rfl, rfl⟩
  · exact Or.inl ⟨rfl, rfl⟩
  · exact Or.inl ⟨rfl, rfl⟩
  · exact Or.inl ⟨rfl, rfl⟩
  · exact Or.inl ⟨rfl, rfl⟩
  · exact Or.inr ⟨h6, rfl, rfl, rfl⟩

/-- The accumulator never exceeds `maxBlockUnits` during a pass. -/
theorem buildGossip_budget (cfg : ProposerConfig) (rules : Rules) (now : Int) :
    ∀ (l : List Tx) (st : SelSt),
      st.totalUnits ≤ rules.maxBlockUnits →
      (buildGossip cfg rules now l st).1.totalUnits ≤ rules.maxBlockUnits := by
  intro l
  induction l with
  | nil => exact fun st h => h
  | cons hd tl ih =>
    intro st h
    rw [buildGossip_cons]
    have hnext : (gossipSelectStep cfg rules now st hd).st.totalUnits
        ≤ rules.maxBlockUnits := by
      rcases gossipSelectStep_units cfg rules now st hd with ⟨hu, _⟩ | ⟨hg, hu, _, _⟩
      · rw [hu]; exact h
      · rw [hu, Nat.add_comm]
        exact not_lt.mp hg
    by_cases hc : (gossipSelectStep cfg rules now st hd).cont = true
    · simp only [hc, if_true]
      exact ih _ hnext
    · rw [if_neg (by simp [hc])]
      exact hnext

/-- Without `uint64` wraparound (all unit costs and the budget below
`2 ^ 63`), the accumulator equals the exact sum of the batch's units and
stays within the budget. -/
theorem buildGossip_exact (cfg : ProposerConfig) (rules : Rules) (now : Int)
    (hmax : rules.maxBlockUnits < 2 ^ 63) :
    ∀ (l : List Tx) (st : SelSt),
      (∀ tx ∈ l, tx.units < 2 ^ 63) →
      st.totalUnits = unitSum st.txs →
      st.totalUnits ≤ rules.maxBlockUnits →
      (buildGossip cfg rules now l st).1.totalUnits
          = unitSum (buildGossip cfg rules now l st).1.txs ∧
        (buildGossip cfg rules now l st).1.totalUnits ≤ rules.maxBlockUnits := by
  intro l
  induction l with
  | nil => exact fun st _ heq hle => ⟨heq, hle⟩
  | cons hd tl ih =>
    intro st hunits heq hle
    rw [buildGossip_cons]
    have hnext : (gossipSelectStep cfg rules now st hd).st.totalUnits
          = unitSum (gossipSelectStep cfg rules now st hd).st.txs ∧
        (gossipSelectStep cfg rules now st hd).st.totalUnits
          ≤ rules.maxBlockUnits := by
      rcases gossipSelectStep_units cfg rules now st hd with ⟨hu, ht⟩ | ⟨hg, hu, ht, _⟩
      · rw [hu, ht]
        exact ⟨heq, hle⟩
      · have hhd : hd.units < 2 ^ 63 := hunits hd (List.mem_cons_self _ _)
        have hfit : st.totalUnits + hd.units < u64Mod := by
          unfold u64Mod
          omega
        have hmod : (st.totalUnits + hd.units) % u64Mod
            = st.totalUnits + hd.units := Nat.mod_eq_of_lt hfit
        constructor
        · rw [hu, ht, hmod, unitSum_append, heq]
        · rw [hu, hmod]
          have := not_lt.mp hg
          rw [Nat.add_comm hd.units st.totalUnits, hmod] at this
          exact this
    by_cases hc : (gossipSelectStep cfg rules now st hd).cont = true
    · simp only [hc, if_true]
      exact ih _ (fun tx htx => hunits tx (List.mem_cons_of_mem _ htx))
        hnext.1 hnext.2
    · rw [if_neg (by simp [hc])]
      exact hnext

/-- Starting below the transaction-count limit, a pass never grows the
batch past `maxBlockTxs`. -/
theorem buildGossip_count (cfg : ProposerConfig) (rules : Rules) (now : Int) :
    ∀ (l : List Tx) (st : SelSt),
      st.txs.length < rules.maxBlockTxs →
      (buildGossip cfg rules now l st).1.txs.length ≤ rules.maxBlockTxs := by
  intro l
  induction l with
  | nil => exact fun st h => Nat.le_of_lt h
  | cons hd tl ih =>
    intro st h
    rw [buildGossip_cons]
    by_cases hc : (gossipSelectStep cfg rules now st hd).cont = true
    · simp only [hc, if_true]
      rcases gossipSelectStep_units cfg rules now st hd with ⟨_, ht⟩ | ⟨_, _, ht, hcnt⟩
      · exact ih _ (ht ▸ h)
      · apply ih
        rw [ht]
        exact of_decide_eq_true (hcnt ▸ hc)
    · rw [if_neg (by simp [hc])]
      rcases gossipSelectStep_units cfg rules now st hd with ⟨_, ht⟩ | ⟨_, _, ht, _⟩
      · rw [ht]
        exact Nat.le_of_lt h
      · rw [ht]
        simp only [List.length_append, List.length_cons, List.length_nil]
        omega

/-- C1 counterexample: the budget and count bounds fail as stated.  With
unit costs `[5, 2 ^ 64 - 3]` and `maxBlockUnits = 10`, the wrapped
`uint64` accumulator reads 2 after both additions, so the exceed-budget
check never fires and both candidates are batched although their exact
summed units, `2 ^ 64 + 2`, exceeds the budget; and with
`maxBlockTxs = 0` one candidate is appended before the
`len(txs) < maxBlockTxs` stop check runs, a 1-entry batch. -/
theorem c1_batch_selector_budget_counterexample :
    (buildGossip defaultProposerConfig ⟨10, 10⟩ 0
        [mkTx 1 100 5, mkTx 2 100 (2 ^ 64 - 3)] ⟨[], 0, ⟨65536, []⟩⟩).1.txs
      = [mkTx 1 100 5, mkTx 2 100 (2 ^ 64 - 3)] ∧
    10 < unitSum [mkTx 1 100 5, mkTx 2 100 (2 ^ 64 - 3)] ∧
    (buildGossip defaultProposerConfig ⟨70, 0⟩ 0
        [mkTx 1 100 30] ⟨[], 0, ⟨65536, []⟩⟩).1.txs.length = 1 :=
  ⟨by decide, by decide, by decide⟩

/-- C1 amended: over any priority-ordered candidate sequence, the
accumulator `totalUnits` — the wrapped `uint64` sum the code compares
against the budget — never exceeds `maxBlockUnits`; absent `uint64`
wraparound (all unit costs and the budget below `2 ^ 63`) the batch's
exact summed units is therefore at most `maxBlockUnits`; the batch has at
most `maxBlockTxs` entries whenever `maxBlockTxs ≥ 1` (with
`maxBlockTxs = 0` a single entry is still admitted); the first candidate
whose units added to the accumulator would exceed the budget stops the
scan, restored to the mempool, with the rest unexamined; and candidates
with units `[30, 30, 50]` under `maxBlockUnits = 70` yield exactly the
first two, in priority order. -/
theorem c1_batch_selector_budget :
    (∀ (cfg : ProposerConfig) (rules : Rules) (now : Int) (l : List Tx) (rcv : LRU),
        (buildGossip cfg rules now l ⟨[], 0, rcv⟩).1.totalUnits
          ≤ rules.maxBlockUnits) ∧
    (∀ (cfg : ProposerConfig) (rules : Rules) (now : Int) (l : List Tx) (rcv : LRU),
        (∀ tx ∈ l, tx.units < 2 ^ 63) → rules.maxBlockUnits < 2 ^ 63 →
        unitSum (buildGossip cfg rules now l ⟨[], 0, rcv⟩).1.txs
          ≤ rules.maxBlockUnits) ∧
    (∀ (cfg : ProposerConfig) (rules : Rules) (now : Int) (l : List Tx) (rcv : LRU),
        0 < rules.maxBlockTxs →
        (buildGossip cfg rules now l ⟨[], 0, rcv⟩).1.txs.length
          ≤ rules.maxBlockTxs) ∧
    (∀ (cfg : ProposerConfig) (rules : Rules) (now : Int) (st : SelSt)
        (tx : Tx) (rest : List Tx),
        ¬ tx.timestamp < now → ¬ tx.timestamp - now < cfg.gossipMinLife →
        tx.id ∉ st.received.keys → tx.preExecOk = true → tx.unitsErr = false →
        rules.maxBlockUnits < (tx.units + st.totalUnits) % u64Mod →
        buildGossip cfg rules now (tx :: rest) st
          = (st, (tx, .examined false true)
              :: rest.map (fun t => (t, Disp.unexamined)))) ∧
    ((buildGossip defaultProposerConfig ⟨70, 10⟩ 0
          [mkTx 1 100 30, mkTx 2 100 30, mkTx 3 100 50] ⟨[], 0, ⟨65536, []⟩⟩).1.txs
        = [mkTx 1 100 30, mkTx 2 100 30] ∧
      (buildGossip defaultProposerConfig ⟨70, 10⟩ 0
          [mkTx 1 100 30, mkTx 2 100 30, mkTx 3 100 50] ⟨[], 0, ⟨65536, []⟩⟩).2
        = [(mkTx 1 100 30, .examined true true),
           (mkTx 2 100 30, .examined true true),
           (mkTx 3 100 50, .examined false true)]) := by
  refine ⟨?_, ?_, ?_, ?_, by decide, by decide⟩
  · intro cfg rules now l rcv
    exact buildGossip_budget cfg rules now l ⟨[], 0, rcv⟩ (Nat.zero_le _)
  · intro cfg rules now l rcv hunits hmax
    have h := buildGossip_exact cfg rules now hmax l ⟨[], 0, rcv⟩ hunits rfl
      (Nat.zero_le _)
    rw [← h.1]
    exact h.2
  · intro cfg rules now l rcv hpos
    exact buildGossip_count cfg rules now l ⟨[], 0, rcv⟩ hpos
  · intro cfg rules now st tx rest h1 h2 h3 h4 h5 h6
    have hg : st.received.get tx.id = (false, st.received) := LRU.get_of_not_mem h3
    have hstep : gossipSelectStep cfg rules now st tx = ⟨false, true, false, st⟩ := by
      simp [gossipSelectStep, h1, h2, hg, h4, h5, h6]
    rw [buildGossip_cons, hstep]
    simp

/-- C1 witness: the accumulator bound, budget, count and stop-rule facts
at concrete inputs. -/
theorem c1_batch_selector_budget_witness :
    (buildGossip defaultProposerConfig ⟨70, 10⟩ 0
        [mkTx 1 100 30, mkTx 2 100 30, mkTx 3 100 50] ⟨[], 0, ⟨65536, []⟩⟩).1.totalUnits
      ≤ 70 ∧
    unitSum (buildGossip defaultProposerConfig ⟨70, 10⟩ 0
        [mkTx 1 100 30, mkTx 2 100 30, mkTx 3 100 50] ⟨[], 0, ⟨65536, []⟩⟩).1.txs
      ≤ 70 ∧
    (buildGossip defaultProposerConfig ⟨70, 10⟩ 0
        [mkTx 1 100 30, mkTx 2 100 30, mkTx 3 100 50] ⟨[], 0, ⟨65536, []⟩⟩).1.txs.length
      ≤ 10 ∧
    buildGossip defaultProposerConfig ⟨70, 10⟩ 0 [mkTx 3 100 50]
        ⟨[mkTx 1 100 30, mkTx 2 100 30], 60, ⟨65536, []⟩⟩
      = (⟨[mkTx 1 100 30, mkTx 2 100 30], 60, ⟨65536, []⟩⟩,
          [(mkTx 3 100 50, .examined false true)]) :=
  ⟨c1_batch_selector_budget.1 defaultProposerConfig ⟨70, 10⟩ 0
      [mkTx 1 100 30, mkTx 2 100 30, mkTx 3 100 50] ⟨65536, []⟩,
   c1_batch_selector_budget.2.1 defaultProposerConfig ⟨70, 10⟩ 0
      [mkTx 1 100 30, mkTx 2 100 30, mkTx 3 100 50] ⟨65536, []⟩
      (by decide) (by decide),
   c1_batch_selector_budget.2.2.1 defaultProposerConfig ⟨70, 10⟩ 0
      [mkTx 1 100 30, mkTx 2 100 30, mkTx 3 100 50] ⟨65536, []⟩ (by decide),
   c1_batch_selector_budget.2.2.2.1 defaultProposerConfig ⟨70, 10⟩ 0
      ⟨[mkTx 1 100 30, mkTx 2 100 30], 60, ⟨65536, []⟩⟩ (mkTx 3 100 50) []
      (by decide) (by decide) (by decide) (by decide) (by decide) (by decide)⟩

/-- C5: marking a transaction sent puts its ID in the peer's cache; the
send filter skips exactly the IDs present in the cache (`shouldSend` is
false precisely for cached IDs, and a cached candidate is dropped from the
filtered batch); and an ID leaves a cache only under capacity pressure —
`Get` never removes members and `Put` keeps every member while the cache
is below capacity. -/
theorem c5_per_peer_dedup :
    (∀ (c : LRU) (t : Nat), 0 < c.size → t ∈ (c.put t).keys) ∧
    (∀ (c : LRU) (t : Nat), shouldSend c t = false ↔ t ∈ c.keys) ∧
    (∀ (c : LRU) (tx : Tx) (rest : List Tx),
        tx.id ∈ c.keys →
        (filterForPeer c (tx :: rest)).1 = (filterForPeer (c.get tx.id).2 rest).1) ∧
    (∀ (c : LRU) (l : List Tx) (tx : Tx), tx ∈ (filterForPeer c l).1 → tx ∈ l) ∧
    (∀ (c : LRU) (k t : Nat), t ∈ c.keys → c.keys.length < c.size →
        t ∈ (c.put k).keys) ∧
    (∀ (c : LRU) (k t : Nat), t ∈ c.keys ↔ t ∈ ((c.get k).2).keys) := by
  refine ⟨?_, ?_, ?_, ?_, ?_, ?_⟩
  · exact fun c t h => LRU.mem_put_self h
  · intro c t
    rw [← LRU.get_fst_iff c t]
    unfold shouldSend
    cases (c.get t).1 <;> simp
  · intro c tx rest h
    have hg : (c.get tx.id).1 = true := (LRU.get_fst_iff _ _).mpr h
    simp [filterForPeer, hg]
  · exact fun c l tx h => filterForPeer_sub tx h
  · exact fun c k t ht hlen => LRU.mem_put_of_length_lt ht hlen
  · exact fun c k t => (LRU.mem_get_keys k).symm

/-- C5 witness: the dedup facts at concrete caches. -/
theorem c5_per_peer_dedup_witness :
    4 ∈ ((⟨2, []⟩ : LRU).put 4).keys ∧
    (shouldSend ⟨2, [4]⟩ 4 = false ↔ 4 ∈ ((⟨2, [4]⟩ : LRU)).keys) ∧
    (filterForPeer ⟨2, [1]⟩ [mkTx 1 100 30]).1
      = (filterForPeer ((⟨2, [1]⟩ : LRU).get 1).2 []).1 ∧
    mkTx 1 100 30 ∈ ([mkTx 1 100 30] : List Tx) ∧
    1 ∈ ((⟨3, [1]⟩ : LRU).put 2).keys ∧
    (1 ∈ ((⟨3, [1]⟩ : LRU)).keys ↔ 1 ∈ (((⟨3, [1]⟩ : LRU).get 2).2).keys) :=
  ⟨c5_per_peer_dedup.1 ⟨2, []⟩ 4 (by decide),
   c5_per_peer_dedup.2.1 ⟨2, [4]⟩ 4,
   c5_per_peer_dedup.2.2.1 ⟨2, [1]⟩ (mkTx 1 100 30) [] (by decide),
   c5_per_peer_dedup.2.2.2.1 ⟨2, []⟩ [mkTx 1 100 30] (mkTx 1 100 30) (by decide),
   c5_per_peer_dedup.2.2.2.2.1 ⟨3, [1]⟩ 2 1 (by decide) (by decide),
   c5_per_peer_dedup.2.2.2.2.2 ⟨3, [1]⟩ 2 1⟩

/-- While a pass stays within the cache's capacity, nothing is evicted:
every prior member and every newly inserted ID is still in the cache when
the pass ends. -/
theorem filterForPeer_no_evict :
    ∀ (txs : List Tx) (c : LRU),
      c.keys.length + (filterForPeer c txs).1.length ≤ c.size →
      (∀ x ∈ c.keys, x ∈ (filterForPeer c txs).2.keys) ∧
      (∀ tx ∈ (filterForPeer c txs).1, tx.id ∈ (filterForPeer c txs).2.keys) := by
  intro txs
  induction txs with
  | nil =>
    intro c _
    exact ⟨fun x hx => hx, by intro tx h; simp [filterForPeer] at h⟩
  | cons hd tl ih =>
    intro c h
    by_cases hg : (c.get hd.id).1 = true
    · have heq : filterForPeer c (hd :: tl) = filterForPeer (c.get hd.id).2 tl := by
        simp [filterForPeer, hg]
      rw [heq] at h ⊢
      have hcap : (c.get hd.id).2.keys.length
            + (filterForPeer (c.get hd.id).2 tl).1.length
          ≤ (c.get hd.id).2.size := by
        rw [LRU.get_keys_length, LRU.get_size]
        exact h
      obtain ⟨ih1, ih2⟩ := ih _ hcap
      exact ⟨fun x hx => ih1 x ((LRU.mem_get_keys hd.id).mpr hx), ih2⟩
    · have hmem : hd.id ∉ c.keys := fun hm => hg ((LRU.get_fst_iff _ _).mpr hm)
      have hg0 : c.get hd.id = (false, c) := LRU.get_of_not_mem hmem
      have heq : filterForPeer c (hd :: tl)
          = (hd :: (filterForPeer (c.put hd.id) tl).1,
              (filterForPeer (c.put hd.id) tl).2) := by
        simp [filterForPeer, hg0]
      rw [heq] at h ⊢
      simp only [List.length_cons] at h
      have hkeys : (c.put hd.id).keys = hd.id :: c.keys := by
        unfold LRU.put
        rw [if_neg hmem]
        exact List.take_of_length_le (by simp; omega)
      have hcap : (c.put hd.id).keys.length
            + (filterForPeer (c.put hd.id) tl).1.length
          ≤ (c.put hd.id).size := by
        rw [LRU.put_size, hkeys]
        simp only [List.length_cons]
        omega
      obtain ⟨ih1, ih2⟩ := ih _ hcap
      constructor
      · intro x hx
        exact ih1 x (by rw [hkeys]; exact List.mem_cons_of_mem _ hx)
      · intro tx htx
        rcases List.mem_cons.mp htx with rfl | htx
        · exact ih1 tx.id (by rw [hkeys]; exact List.mem_cons_self _ _)
        · exact ih2 tx htx

/-- C9 counterexample: with a peer cache of capacity 2, a failed cycle
over batch `[1, 2, 3]` (marshal fails) inserts all three IDs but evicts
ID 1 by capacity pressure before returning the error; the next cycle then
resends transaction 1 to the same peer — so "subsequent gossip cycles
will never resend those transactions" is false. -/
theorem c9_failed_send_counterexample :
    sendTxs ⟨99, 2, .ok [5], fun l => !(l == [1, 2, 3]), true, fun _ => true⟩
        [] [mkTx 1 100 30, mkTx 2 100 30, mkTx 3 100 30]
      = (true, [], [(5, ⟨2, [3, 2]⟩)]) ∧
    (sendTxs ⟨99, 2, .ok [5], fun l => !(l == [1, 2, 3]), true, fun _ => true⟩
        [(5, ⟨2, [3, 2]⟩)] [mkTx 1 100 30]).2.1
      = [.targeted 5 [1]] :=
  ⟨by decide, by decide⟩

/-- C9 amended: the per-peer cache insertions made while filtering are
not rolled back when the marshal or the per-peer send then fails —
`sendTxs` returns the error with the peer's cache already updated — and
as long as the pass stays within the cache's capacity every inserted ID
is still cached afterwards (so it will not be resent); an insertion may
however be evicted by capacity pressure, after which the transaction can
be resent despite the failed delivery. -/
theorem c9_failed_send_insertions :
    (∀ (env : SendEnv) (txs : List Tx) (p : Nat) (rest : List Nat)
        (m : GossipMap) (c : LRU),
        p ≠ env.nodeID →
        (lookupCache m p).getD ⟨env.peerCacheSize, []⟩ = c →
        (filterForPeer c txs).1 ≠ [] →
        env.marshalOk ((filterForPeer c txs).1.map (·.id)) = false →
        sendLoop env txs (p :: rest) m
          = (true, [], updateCache m p (filterForPeer c txs).2)) ∧
    (∀ (env : SendEnv) (txs : List Tx) (p : Nat) (rest : List Nat)
        (m : GossipMap) (c : LRU),
        p ≠ env.nodeID →
        (lookupCache m p).getD ⟨env.peerCacheSize, []⟩ = c →
        (filterForPeer c txs).1 ≠ [] →
        env.marshalOk ((filterForPeer c txs).1.map (·.id)) = true →
        env.sendSpecificOk p = false →
        sendLoop env txs (p :: rest) m
          = (true, [.targeted p ((filterForPeer c txs).1.map (·.id))],
              updateCache m p (filterForPeer c txs).2)) ∧
    (∀ (c : LRU) (txs : List Tx),
        c.keys.length + (filterForPeer c txs).1.length ≤ c.size →
        ∀ tx ∈ (filterForPeer c txs).1, tx.id ∈ (filterForPeer c txs).2.keys) := by
  refine ⟨?_, ?_, ?_⟩
  · intro env txs p rest m c h1 hc hne hm
    subst hc
    simp only [sendLoop]
    rw [if_neg h1]
    rw [if_neg (by simp [List.isEmpty_iff, hne])]
    rw [if_neg (by simp [hm])]
  · intro env txs p rest m c h1 hc hne hm hs
    subst hc
    simp only [sendLoop]
    rw [if_neg h1]
    rw [if_neg (by simp [List.isEmpty_iff, hne])]
    rw [if_pos hm]
    rw [if_neg (by simp [hs])]
  · exact fun c txs h => (filterForPeer_no_evict txs c h).2

/-- C9 witness: the persistence facts at concrete inputs. -/
theorem c9_failed_send_insertions_witness :
    sendLoop ⟨99, 4, .ok [5], fun _ => false, true, fun _ => true⟩
        [mkTx 1 100 30] [5] []
      = (true, [],
          updateCache [] 5 (filterForPeer ⟨4, []⟩ [mkTx 1 100 30]).2) ∧
    sendLoop ⟨99, 4, .ok [5], fun _ => true, true, fun _ => false⟩
        [mkTx 1 100 30] [5] []
      = (true, [.targeted 5 ((filterForPeer ⟨4, []⟩ [mkTx 1 100 30]).1.map (·.id))],
          updateCache [] 5 (filterForPeer ⟨4, []⟩ [mkTx 1 100 30]).2) ∧
    ∀ tx ∈ (filterForPeer ⟨4, []⟩ [mkTx 1 100 30]).1,
      tx.id ∈ (filterForPeer ⟨4, []⟩ [mkTx 1 100 30]).2.keys :=
  ⟨c9_failed_send_insertions.1 _ [mkTx 1 100 30] 5 [] [] ⟨4, []⟩
      (by decide) rfl (by decide) rfl,
   c9_failed_send_insertions.2.1 _ [mkTx 1 100 30] 5 [] [] ⟨4, []⟩
      (by decide) rfl (by decide) rfl rfl,
   c9_failed_send_insertions.2.2 ⟨4, []⟩ [mkTx 1 100 30] (by decide)⟩

/-- C10: `SubBalance` fails with a wrapped `ErrInvalidBalance` and leaves
the store unchanged when the amount exceeds the stored balance; subtracting
the exact balance removes the record entirely, after which `GetBalance`
reports `(0, nil)` exactly as for an account that never existed (and the
in-memory accessor never reports an error). -/
theorem c10_sub_balance_spec :
    (∀ (db : Store) (k : Nat × Nat) (amount bal : Nat),
        getBalance db k = .ok bal → bal < amount →
        subBalance db k amount = (some .invalidBalance, db)) ∧
    (∀ (db : Store) (k : Nat × Nat) (bal : Nat),
        getBalance db k = .ok bal →
        subBalance db k bal = (none, dbRemove db k) ∧
        dbLookup (dbRemove db k) k = none ∧
        getBalance (dbRemove db k) k = .ok 0) ∧
    (∀ (db : Store) (k : Nat × Nat), ∃ bal, getBalance db k = .ok bal) := by
  have hrem : ∀ (db : Store) (k : Nat × Nat), dbLookup (dbRemove db k) k = none := by
    intro db k
    induction db with
    | nil => rfl
    | cons e rest ih =>
      by_cases he : e.1 = k
      · simp [dbRemove, he, ih]
      · simp [dbRemove, dbLookup, he, ih]
  refine ⟨?_, ?_, ?_⟩
  · intro db k amount bal h hlt
    simp [subBalance, h, hlt]
  · intro db k bal h
    refine ⟨by simp [subBalance, h], hrem db k, ?_⟩
    simp [getBalance, dbGetValue, hrem db k, innerGetBalance]
  · intro db k
    cases h : dbLookup db k with
    | none => exact ⟨0, by simp [getBalance, dbGetValue, h, innerGetBalance]⟩
    | some v => exact ⟨v, by simp [getBalance, dbGetValue, h, innerGetBalance]⟩

/-- C10 witness: the balance facts at a concrete store. -/
theorem c10_sub_balance_spec_witness :
    subBalance [((1, 2), 50)] (1, 2) 60 = (some .invalidBalance, [((1, 2), 50)]) ∧
    subBalance [((1, 2), 50)] (1, 2) 50 = (none, dbRemove [((1, 2), 50)] (1, 2)) ∧
    getBalance (dbRemove [((1, 2), 50)] (1, 2)) (1, 2) = .ok 0 :=
  ⟨c10_sub_balance_spec.1 [((1, 2), 50)] (1, 2) 60 50 rfl (by decide),
   (c10_sub_balance_spec.2.1 [((1, 2), 50)] (1, 2) 50 rfl).1,
   (c10_sub_balance_spec.2.1 [((1, 2), 50)] (1, 2) 50 rfl).2.2⟩

end HyperSDK
